import Mathlib

/-!
Shallow embedding of the ffarm master job/worker store
(`src/ffarm/jobs.py`, `src/ffarm/workers.py`, `src/ffarm/master/api.py`,
`src/ffarm/master/background.py`).

Timestamps (`datetime`) are modelled as `Int` (seconds); progress floats
as `Rat`; nullable columns as `Option`.  The job and worker tables are
lists of rows; `session.get` by primary key is modelled as first-match
lookup and per-row mutation as first-match replacement, while `SELECT …
WHERE` loops that mutate every selected row are modelled as a map
guarded by the WHERE predicate.
-/

namespace FFarm

inductive JobState where
  | PENDING
  | LEASED
  | RUNNING
  | SUCCEEDED
  | FAILED
deriving DecidableEq, Repr

inductive WorkerStatus where
  | ONLINE
  | STOPPING
  | FORCE_STOPPING
  | STOPPED
  | OFFLINE
deriving DecidableEq, Repr

/-- A row of the `job` table (`src/ffarm/models.py`, class `Job`). -/
structure Job where
  id : Nat
  input_path : String
  output_path : String
  profile : String
  state : JobState
  worker_id : Option String
  lease_until : Option Int
  progress : Rat
  created_at : Int
  started_at : Option Int
  finished_at : Option Int
  return_code : Option Int
  stderr_tail : Option String
  stdout_tail : Option String
  attempts : Nat
  error_message : Option String
deriving DecidableEq, Repr

/-- A row of the `worker` table (`src/ffarm/models.py`, class `Worker`). -/
structure Worker where
  id : String
  name : String
  base_url : String
  last_seen : Option Int
  status : WorkerStatus
  running_job_id : Option Nat
  accept_leases : Bool
deriving DecidableEq, Repr

/-- `LEASE_DURATION_SECONDS = 15 * 60` (`src/ffarm/config.py`). -/
def LEASE_DURATION_SECONDS : Int := 15 * 60

/-- `HEARTBEAT_TIMEOUT_SECONDS = 30` (`src/ffarm/config.py`). -/
def HEARTBEAT_TIMEOUT_SECONDS : Int := 30

/-- `session.get(Job, job_id)`: primary-key lookup, first matching row. -/
def findJob (s : List Job) (jid : Nat) : Option Job :=
  s.find? (fun j => decide (j.id = jid))

/-- Write back a mutated row: replace the first row with the given id. -/
def setJob : List Job → Nat → Job → List Job
  | [], _, _ => []
  | k :: rest, jid, j =>
    if k.id = jid then j :: rest else k :: setJob rest jid j

/-- The row a fresh `Job(...)` constructor makes in `enqueue_folder`
(`src/ffarm/jobs.py` line 67): state PENDING and the model defaults. -/
def newJob (jid : Nat) (input output profile : String) (created : Int) : Job :=
  { id := jid, input_path := input, output_path := output, profile := profile
    state := JobState.PENDING, worker_id := none, lease_until := none
    progress := 0, created_at := created, started_at := none, finished_at := none
    return_code := none, stderr_tail := none, stdout_tail := none
    attempts := 0, error_message := none }

/-- `select(Job).where(Job.state == PENDING)`. -/
def pendingJobs (s : List Job) : List Job :=
  s.filter (fun j => decide (j.state = JobState.PENDING))

/-- `order_by(created_at).first()`: a row with minimal `created_at`
(first such row in table order). -/
def minByCreatedAt : List Job → Option Job
  | [] => none
  | j :: rest =>
    match minByCreatedAt rest with
    | none => some j
    | some k => if j.created_at ≤ k.created_at then some j else some k

/-- The stale-lease WHERE clause of `lease_next_job` and `expire_leases`:
`state IN (LEASED, RUNNING) AND lease_until IS NOT NULL AND lease_until < now`. -/
def stealable (now : Int) (j : Job) : Bool :=
  (decide (j.state = JobState.LEASED) || decide (j.state = JobState.RUNNING)) &&
    (match j.lease_until with
     | none => false
     | some t => decide (t < now))

/-- The steal query of `lease_next_job`: `.first()` over the stale rows. -/
def selectSteal (now : Int) (s : List Job) : Option Job :=
  (s.filter (stealable now)).head?

/-- Row selection of `lease_next_job`: FIFO pending first, else steal. -/
def selectNext (now : Int) (s : List Job) : Option Job :=
  match minByCreatedAt (pendingJobs s) with
  | some j => some j
  | none => selectSteal now s

/-- The mutation `lease_next_job` applies to the selected row
(`src/ffarm/jobs.py` lines 141-146). -/
def claimJob (wid : String) (now : Int) (j : Job) : Job :=
  { j with
      state := JobState.LEASED
      worker_id := some wid
      lease_until := some (now + LEASE_DURATION_SECONDS)
      attempts := j.attempts + 1
      started_at := match j.started_at with
        | none => some now
        | some t => some t }

/-- `lease_next_job(worker_id, now)` (`src/ffarm/jobs.py` lines 119-150):
returns the refreshed claimed row and the new table. -/
def lease_next_job (wid : String) (now : Int) (s : List Job) :
    Option Job × List Job :=
  match selectNext now s with
  | none => (none, s)
  | some j =>
    let jc := claimJob wid now j
    (some jc, setJob s j.id jc)

/-- `update_lease(job_id, worker_id, progress)` (`src/ffarm/jobs.py`
lines 153-164): dropped when the row is missing or owned by another
worker; otherwise state RUNNING, fresh lease, optional progress. -/
def update_lease (jid : Nat) (wid : String) (progress : Option Rat)
    (now : Int) (s : List Job) : List Job :=
  match findJob s jid with
  | none => s
  | some j =>
    if j.worker_id = some wid then
      setJob s jid
        { j with
            state := JobState.RUNNING
            lease_until := some (now + LEASE_DURATION_SECONDS)
            progress := match progress with
              | none => j.progress
              | some p => p }
    else s

/-- `complete_job(job_id, worker_id, ...)` (`src/ffarm/jobs.py`
lines 167-192).  NOTE: it sets `lease_until = None` but leaves
`worker_id` untouched, and it has no terminal-state check. -/
def complete_job (jid : Nat) (wid : String) (success : Bool)
    (return_code : Int) (stderr stdout err : Option String)
    (now : Int) (s : List Job) : List Job :=
  match findJob s jid with
  | none => s
  | some j =>
    if j.worker_id = some wid then
      setJob s jid
        { j with
            state := if success then JobState.SUCCEEDED else JobState.FAILED
            finished_at := some now
            return_code := some return_code
            progress := if success then 1 else j.progress
            stderr_tail := stderr
            stdout_tail := stdout
            error_message := err
            lease_until := none }
    else s

/-- The per-row mutation of `reset_failed_jobs` (`src/ffarm/jobs.py`
lines 198-208). -/
def resetJobFields (j : Job) : Job :=
  { j with
      state := JobState.PENDING, progress := 0, worker_id := none
      lease_until := none, started_at := none, finished_at := none
      return_code := none, stderr_tail := none, stdout_tail := none
      error_message := none }

/-- `reset_failed_jobs()` (`src/ffarm/jobs.py` lines 195-211): every
FAILED row is reset; returns the count of rows touched. -/
def reset_failed_jobs (s : List Job) : Nat × List Job :=
  ((s.filter (fun j => decide (j.state = JobState.FAILED))).length,
   s.map (fun j => if j.state = JobState.FAILED then resetJobFields j else j))

/-- The WHERE clause of `release_jobs_for_worker`:
`worker_id == wid AND state IN (LEASED, RUNNING)`. -/
def releaseMatches (wid : String) (j : Job) : Bool :=
  decide (j.worker_id = some wid) &&
    (decide (j.state = JobState.LEASED) || decide (j.state = JobState.RUNNING))

/-- The per-row mutation of `release_jobs_for_worker`
(`src/ffarm/jobs.py` lines 258-268). -/
def releasedJob (j : Job) : Job :=
  { j with
      state := JobState.PENDING, worker_id := none, lease_until := none
      progress := 0, started_at := none, finished_at := none
      return_code := none, stderr_tail := none, stdout_tail := none
      error_message := none }

/-- `release_jobs_for_worker(worker_id)` (`src/ffarm/jobs.py`
lines 245-271). -/
def release_jobs_for_worker (wid : String) (s : List Job) :
    Nat × List Job :=
  ((s.filter (releaseMatches wid)).length,
   s.map (fun j => if releaseMatches wid j then releasedJob j else j))

/-- `expire_leases()` (`src/ffarm/master/background.py` lines 36-51):
every LEASED/RUNNING row whose lease has expired reverts to PENDING with
`worker_id` and `lease_until` cleared (nothing else is touched). -/
def expire_leases (now : Int) (s : List Job) : List Job :=
  s.map (fun j =>
    if stealable now j then
      { j with state := JobState.PENDING, worker_id := none, lease_until := none }
    else j)

/-- `session.get(Worker, worker_id)`: primary-key lookup. -/
def findWorker (ws : List Worker) (wid : String) : Option Worker :=
  ws.find? (fun w => decide (w.id = wid))

/-- Write back a mutated worker row. -/
def setWorker : List Worker → String → Worker → List Worker
  | [], _, _ => []
  | k :: rest, wid, w =>
    if k.id = wid then w :: rest else k :: setWorker rest wid w

/-- `upsert_worker(worker_id, name, base_url)` (`src/ffarm/workers.py`
lines 17-39): create ONLINE/accepting, or refresh name, base_url and
last_seen, flipping OFFLINE back to ONLINE; returns the refreshed row. -/
def upsert_worker (wid name base_url : String) (now : Int)
    (ws : List Worker) : Worker × List Worker :=
  match findWorker ws wid with
  | none =>
    let w : Worker :=
      { id := wid, name := name, base_url := base_url, last_seen := some now
        status := WorkerStatus.ONLINE, running_job_id := none, accept_leases := true }
    (w, ws ++ [w])
  | some w =>
    let w' : Worker :=
      { w with
          name := name
          base_url := base_url
          status := if w.status = WorkerStatus.OFFLINE then WorkerStatus.ONLINE
            else w.status
          last_seen := some now }
    (w', setWorker ws wid w')

/-- The keyword arguments of `update_worker_state` (`src/ffarm/workers.py`
lines 42-52): each field is set only when supplied. -/
structure WorkerFields where
  last_seen : Option (Option Int) := none
  status : Option WorkerStatus := none
  running_job_id : Option (Option Nat) := none
  accept_leases : Option Bool := none

/-- `setattr(worker, key, value)` for each supplied field. -/
def applyFields (f : WorkerFields) (w : Worker) : Worker :=
  { w with
      last_seen := f.last_seen.getD w.last_seen
      status := f.status.getD w.status
      running_job_id := f.running_job_id.getD w.running_job_id
      accept_leases := f.accept_leases.getD w.accept_leases }

/-- `update_worker_state(worker_id, **fields)` (`src/ffarm/workers.py`
lines 42-52): no-op on an unknown worker. -/
def update_worker_state (wid : String) (f : WorkerFields)
    (ws : List Worker) : Option Worker × List Worker :=
  match findWorker ws wid with
  | none => (none, ws)
  | some w =>
    let w' := applyFields f w
    (some w', setWorker ws wid w')

/-- `POST /jobs/{job_id}/progress` (`src/ffarm/master/api.py`
lines 66-76): `update_lease` (ownership-checked) followed by an
UNCONDITIONAL overwrite of `stderr_tail`/`stdout_tail` on the row. -/
def job_progress (jid : Nat) (wid : String) (progress : Rat)
    (stderr stdout : Option String) (now : Int) (s : List Job) : List Job :=
  let s1 := update_lease jid wid (some progress) now s
  match findJob s1 jid with
  | none => s1
  | some j => setJob s1 jid { j with stderr_tail := stderr, stdout_tail := stdout }

/-- The master's two tables. -/
structure MasterState where
  jobs : List Job
  workers : List Worker
deriving DecidableEq, Repr

/-- `POST /jobs/{job_id}/complete` (`src/ffarm/master/api.py`
lines 78-90): `complete_job` then an UNCONDITIONAL
`update_worker_state(worker_id, running_job_id=None, status=ONLINE)`. -/
def job_complete (jid : Nat) (wid : String) (success : Bool)
    (return_code : Int) (stderr stdout err : Option String)
    (now : Int) (st : MasterState) : MasterState :=
  { jobs := complete_job jid wid success return_code stderr stdout err now st.jobs
    workers := (update_worker_state wid
      { running_job_id := some none, status := some WorkerStatus.ONLINE }
      st.workers).2 }

/-- Response body of `POST /workers/heartbeat`. -/
structure HeartbeatResponse where
  accept_leases : Bool
  status : WorkerStatus
deriving DecidableEq, Repr

/-- `POST /workers/heartbeat` (`src/ffarm/master/api.py` lines 102-114):
upsert, then overwrite last_seen, status and running_job_id with the
body's values; the response reads the row as it was after the upsert. -/
def heartbeat (wid name base_url : String) (running_job_id : Option Nat)
    (status : WorkerStatus) (now : Int) (ws : List Worker) :
    HeartbeatResponse × List Worker :=
  let u := upsert_worker wid name base_url now ws
  let ws2 := (update_worker_state wid
    { last_seen := some (some now), status := some status
      running_job_id := some running_job_id } u.2).2
  ({ accept_leases := u.1.accept_leases, status := u.1.status }, ws2)

/-- The stale-worker WHERE clause of `mark_offline_workers`:
`last_seen IS NOT NULL AND last_seen < now - HEARTBEAT_TIMEOUT AND
status != OFFLINE`. -/
def staleWorker (now : Int) (w : Worker) : Bool :=
  (match w.last_seen with
   | none => false
   | some t => decide (t < now - HEARTBEAT_TIMEOUT_SECONDS)) &&
    decide (w.status ≠ WorkerStatus.OFFLINE)

/-- The per-row worker mutation of `mark_offline_workers`
(`src/ffarm/master/background.py` lines 68-70). -/
def offlineWorker (w : Worker) : Worker :=
  { w with
      status := WorkerStatus.OFFLINE
      accept_leases := false
      running_job_id := none }

/-- `mark_offline_workers()` (`src/ffarm/master/background.py`
lines 54-76): mark every stale worker OFFLINE/not-accepting with no
running job, then release each one's leased/running jobs. -/
def mark_offline_workers (now : Int) (ws : List Worker) (js : List Job) :
    List Worker × List Job :=
  if HEARTBEAT_TIMEOUT_SECONDS ≤ 0 then (ws, js)
  else
    let staleIds := (ws.filter (staleWorker now)).map (fun w => w.id)
    (ws.map (fun w => if staleWorker now w then offlineWorker w else w),
     staleIds.foldl (fun acc wid => (release_jobs_for_worker wid acc).2) js)

/-- The committed job-store transactions the §3 invariants quantify
over: enqueue of one scanned file, lease, renew, complete, lease
expiry, dead-worker release and failed-job reset. -/
inductive Op where
  | enqueue (jid : Nat) (input output profile : String) (created : Int)
  | lease (wid : String) (now : Int)
  | renew (jid : Nat) (wid : String) (progress : Option Rat) (now : Int)
  | complete (jid : Nat) (wid : String) (success : Bool) (rc : Int)
      (stderr stdout err : Option String) (now : Int)
  | expire (now : Int)
  | release (wid : String)
  | resetFailed

/-- Effect of one committed transaction on the job table. -/
def applyOp : Op → List Job → List Job
  | .enqueue jid i o p c, s => s ++ [newJob jid i o p c]
  | .lease wid now, s => (lease_next_job wid now s).2
  | .renew jid wid pr now, s => update_lease jid wid pr now s
  | .complete jid wid su rc se so er now, s =>
      complete_job jid wid su rc se so er now s
  | .expire now, s => expire_leases now s
  | .release wid, s => (release_jobs_for_worker wid s).2
  | .resetFailed, s => (reset_failed_jobs s).2

/-- Concrete job row used to instantiate the theorems on small tables. -/
def sampleJob (jid : Nat) (st : JobState) (w : Option String)
    (lu : Option Int) (att : Nat) (sa : Option Int) (ca : Int) : Job :=
  { id := jid, input_path := "/in/a.mov", output_path := "/out/a.mov"
    profile := "prores_proxy_1280", state := st, worker_id := w
    lease_until := lu, progress := 0, created_at := ca, started_at := sa
    finished_at := none, return_code := none, stderr_tail := none
    stdout_tail := none, attempts := att, error_message := none }

/-- Concrete worker row used to instantiate the theorems. -/
def sampleWorker (wid : String) (st : WorkerStatus) (ls : Option Int)
    (rj : Option Nat) (al : Bool) : Worker :=
  { id := wid, name := "node", base_url := "http://10.0.0.2:0"
    last_seen := ls, status := st, running_job_id := rj, accept_leases := al }

/-- A job already completed (SUCCEEDED) by worker `w1`; note the
retained `worker_id`, exactly as `complete_job` leaves it. -/
def jobDoneByW1 : Job :=
  { sampleJob 1 JobState.SUCCEEDED (some "w1") none 1 (some 5) 0 with
    finished_at := some 200, return_code := some 0, progress := 1 }

/-- A job running under lease by `w1` with recorded log tails. -/
def jobRunningW1 : Job :=
  { sampleJob 1 JobState.RUNNING (some "w1") (some 100) 1 (some 5) 0 with
    stderr_tail := some "old", stdout_tail := some "oldout" }

/-- One-job master state used to instantiate the endpoint theorems. -/
def stRunningW1 : MasterState :=
  { jobs := [jobRunningW1], workers := [] }

/-- Two PENDING jobs enqueued at times 10 and 20. -/
def storeTwoPending : List Job :=
  [sampleJob 1 JobState.PENDING none none 0 none 10,
   sampleJob 2 JobState.PENDING none none 0 none 20]

/-- One LEASED job whose lease expired one tick before `now = 100`. -/
def storeExpiredLease : List Job :=
  [sampleJob 1 JobState.LEASED (some "w1") (some 99) 1 (some 5) 0]

/-- One LEASED job whose lease ends exactly at `now = 100`. -/
def storeLeaseAtNow : List Job :=
  [sampleJob 1 JobState.LEASED (some "w1") (some 100) 1 (some 5) 0]

/-- An ONLINE worker whose heartbeat (10) is stale at `now = 100`. -/
def workerStaleW1 : Worker :=
  sampleWorker "w1" WorkerStatus.ONLINE (some 10) (some 1) true

/-- A STOPPING worker that is about to report a completion. -/
def workerStoppingW1 : Worker :=
  sampleWorker "w1" WorkerStatus.STOPPING (some 10) (some 1) false

/-- Master state with a RUNNING job and its STOPPING worker. -/
def stStoppingW1 : MasterState :=
  { jobs := [jobRunningW1], workers := [workerStoppingW1] }

/-- One FAILED job (with completion fields set) and one PENDING job. -/
def storeFailedMix : List Job :=
  [{ sampleJob 1 JobState.FAILED (some "w1") none 2 (some 5) 0 with
     finished_at := some 50, return_code := some 1,
     error_message := some "FFmpeg failed" },
   sampleJob 2 JobState.PENDING none none 0 none 10]

/-! ### Invariant predicates (from §3 of the design, checked against the code) -/

/-- Per-row lease-field invariant that the code actually maintains:
LEASED/RUNNING rows carry a worker and a lease; PENDING rows carry
neither; terminal rows carry no lease (their `worker_id` is NOT cleared
by `complete_job`). -/
def leaseInv (j : Job) : Bool :=
  (!(decide (j.state = JobState.LEASED) || decide (j.state = JobState.RUNNING)) ||
      (j.worker_id.isSome && j.lease_until.isSome)) &&
  (!(decide (j.state = JobState.PENDING)) ||
      (j.worker_id.isNone && j.lease_until.isNone)) &&
  (!(decide (j.state = JobState.SUCCEEDED) || decide (j.state = JobState.FAILED)) ||
      j.lease_until.isNone)

/-- The lease-field invariant over the whole job table. -/
def storeLeaseInv (s : List Job) : Prop :=
  ∀ j ∈ s, leaseInv j = true

/-- Per-row form of the §3 invariant `attempts ≥ 1 ⇒ started_at ≠ ∅`. -/
def startedInv (j : Job) : Bool :=
  decide (j.attempts = 0) || j.started_at.isSome

/-- `attempts ≥ 1 ⇒ started_at ≠ ∅` over the whole job table. -/
def storeStartedInv (s : List Job) : Prop :=
  ∀ j ∈ s, startedInv j = true

/-! ### Helper lemmas -/

theorem mem_setJob {j' : Job} :
    ∀ {s : List Job} {jid : Nat} {j : Job},
      j' ∈ setJob s jid j → j' ∈ s ∨ j' = j := by
  intro s
  induction s with
  | nil => intro jid j h; cases h
  | cons k rest ih =>
    intro jid j h
    by_cases hk : k.id = jid
    · simp only [setJob, if_pos hk, List.mem_cons] at h
      rcases h with h | h
      · exact Or.inr h
      · exact Or.inl (List.mem_cons_of_mem _ h)
    · simp only [setJob, if_neg hk, List.mem_cons] at h
      rcases h with h | h
      · exact Or.inl (h ▸ List.mem_cons_self _ _)
      · rcases ih h with h' | h'
        · exact Or.inl (List.mem_cons_of_mem _ h')
        · exact Or.inr h'

theorem find?_eq_some_id {s : List Job} {jid : Nat} {j : Job}
    (h : findJob s jid = some j) : j.id = jid := by
  have := List.find?_some h
  exact of_decide_eq_true this

theorem findWorker_id {ws : List Worker} {wid : String} {w : Worker}
    (h : findWorker ws wid = some w) : w.id = wid := by
  have := List.find?_some h
  exact of_decide_eq_true this

theorem findWorker_setWorker {wid : String} {w w' : Worker} :
    ∀ {ws : List Worker}, findWorker ws wid = some w → w'.id = wid →
      findWorker (setWorker ws wid w') wid = some w' := by
  intro ws
  induction ws with
  | nil => intro h _; cases h
  | cons k rest ih =>
    intro h hid
    by_cases hk : k.id = wid
    · simp only [setWorker, if_pos hk, findWorker, List.find?]
      simp [hid]
    · have hk' : (decide (k.id = wid)) = false := decide_eq_false hk
      simp only [findWorker, List.find?, hk'] at h
      simp only [setWorker, if_neg hk, findWorker, List.find?, hk']
      exact ih h hid

theorem mem_setWorker {w' : Worker} :
    ∀ {ws : List Worker} {wid : String} {w : Worker},
      w' ∈ setWorker ws wid w → w' ∈ ws ∨ w' = w := by
  intro ws
  induction ws with
  | nil => intro wid w h; cases h
  | cons k rest ih =>
    intro wid w h
    by_cases hk : k.id = wid
    · simp only [setWorker, if_pos hk, List.mem_cons] at h
      rcases h with h | h
      · exact Or.inr h
      · exact Or.inl (List.mem_cons_of_mem _ h)
    · simp only [setWorker, if_neg hk, List.mem_cons] at h
      rcases h with h | h
      · exact Or.inl (h ▸ List.mem_cons_self _ _)
      · rcases ih h with h' | h'
        · exact Or.inl (List.mem_cons_of_mem _ h')
        · exact Or.inr h'

theorem releaseMatches_releasedJob (wid : String) (j : Job) :
    releaseMatches wid (releasedJob j) = false := rfl

theorem release_foldl_map (wids : List String) :
    ∀ s : List Job,
      wids.foldl (fun acc wid => (release_jobs_for_worker wid acc).2) s
        = s.map (fun j =>
            if wids.any (fun wid => releaseMatches wid j) then releasedJob j else j) := by
  induction wids with
  | nil =>
    intro s
    simp
  | cons w rest ih =>
    intro s
    have step : (release_jobs_for_worker w s).2
        = s.map (fun j => if releaseMatches w j then releasedJob j else j) := rfl
    simp only [List.foldl_cons, step, ih, List.map_map]
    apply List.map_congr_left
    intro j _
    by_cases hw : releaseMatches w j = true
    · have hall : ∀ wid, releaseMatches wid (releasedJob j) = false :=
        fun wid => releaseMatches_releasedJob wid j
      simp [Function.comp, hw, hall]
    · have hw' : releaseMatches w j = false := Bool.eq_false_iff.mpr hw
      simp [Function.comp, hw', List.any_cons]

theorem minByCreatedAt_ne_none {l : List Job} {j : Job} (h : j ∈ l) :
    minByCreatedAt l ≠ none := by
  cases l with
  | nil => cases h
  | cons a rest =>
    simp only [minByCreatedAt]
    cases minByCreatedAt rest with
    | none => simp
    | some m =>
      by_cases hle : a.created_at ≤ m.created_at
      · simp [if_pos hle]
      · simp [if_neg hle]

theorem minByCreatedAt_mem : ∀ {l : List Job} {j : Job},
    minByCreatedAt l = some j → j ∈ l := by
  intro l
  induction l with
  | nil => intro j h; cases h
  | cons a rest ih =>
    intro j h
    simp only [minByCreatedAt] at h
    cases hr : minByCreatedAt rest with
    | none =>
      rw [hr] at h
      rw [Option.some.inj h] at *
      exact List.mem_cons_self _ _
    | some m =>
      simp only [hr] at h
      by_cases hle : a.created_at ≤ m.created_at
      · rw [if_pos hle] at h
        rw [Option.some.inj h] at *
        exact List.mem_cons_self _ _
      · rw [if_neg hle] at h
        have hmj : m = j := Option.some.inj h
        subst hmj
        exact List.mem_cons_of_mem _ (ih hr)

theorem minByCreatedAt_le : ∀ {l : List Job} {j : Job},
    minByCreatedAt l = some j → ∀ k ∈ l, j.created_at ≤ k.created_at := by
  intro l
  induction l with
  | nil => intro j h; cases h
  | cons a rest ih =>
    intro j h k hk
    simp only [minByCreatedAt] at h
    cases hr : minByCreatedAt rest with
    | none =>
      rcases List.mem_cons.mp hk with hk | hk
      · rw [hr] at h
        rw [← Option.some.inj h, hk]
      · exact absurd hr (minByCreatedAt_ne_none hk)
    | some m =>
      simp only [hr] at h
      by_cases hle : a.created_at ≤ m.created_at
      · rw [if_pos hle] at h
        rw [← Option.some.inj h]
        rcases List.mem_cons.mp hk with hk | hk
        · rw [hk]
        · exact le_trans hle (ih hr k hk)
      · rw [if_neg hle] at h
        rw [← Option.some.inj h]
        rcases List.mem_cons.mp hk with hk | hk
        · rw [hk]; exact le_of_lt (lt_of_not_le hle)
        · exact ih hr k hk

theorem mem_pendingJobs {s : List Job} {j : Job} :
    j ∈ pendingJobs s ↔ j ∈ s ∧ j.state = JobState.PENDING := by
  simp [pendingJobs, List.mem_filter]

theorem pendingJobs_eq_nil_of {s : List Job}
    (h : ∀ j ∈ s, j.state ≠ JobState.PENDING) : pendingJobs s = [] := by
  apply List.filter_eq_nil_iff.mpr
  intro j hj
  simp [h j hj]

theorem leaseInv_claimJob (wid : String) (now : Int) (j : Job) :
    leaseInv (claimJob wid now j) = true := rfl

theorem leaseInv_renewRow (j : Job) (wid : String) (x : Int) (pr : Option Rat)
    (h : j.worker_id = some wid) :
    leaseInv
      { j with state := JobState.RUNNING, lease_until := some x,
               progress := match pr with | none => j.progress | some p => p }
      = true := by
  simp [leaseInv, h]

theorem leaseInv_completeRow (j : Job) (success : Bool) (now : Int) (rc : Int)
    (se so er : Option String) :
    leaseInv { j with
        state := if success then JobState.SUCCEEDED else JobState.FAILED
        finished_at := some now
        return_code := some rc
        progress := if success then 1 else j.progress
        stderr_tail := se
        stdout_tail := so
        error_message := er
        lease_until := none } = true := by
  cases success <;> rfl

/-- C1: REFUTED as stated.  `complete_job` moves a LEASED job owned by
`w1` to SUCCEEDED but leaves `worker_id = some "w1"` in place (it only
clears `lease_until`), so a terminal job does not have both fields
null. -/
theorem C1_counterexample :
    (findJob (complete_job 1 "w1" true 0 none none none 200
        [sampleJob 1 JobState.LEASED (some "w1") (some 100) 1 (some 5) 0])
        1).map Job.state = some JobState.SUCCEEDED
    ∧ (findJob (complete_job 1 "w1" true 0 none none none 200
        [sampleJob 1 JobState.LEASED (some "w1") (some 100) 1 (some 5) 0])
        1).map Job.worker_id = some (some "w1") := by
  constructor <;> rfl

/-- C1 (amended): after every committed store transaction every job
satisfies: state ∈ {LEASED, RUNNING} implies worker_id and lease_until
are both non-null, state = PENDING implies both are null, and state ∈
{SUCCEEDED, FAILED} implies lease_until is null — `complete_job` clears
`lease_until` but retains `worker_id` on the terminal row. -/
theorem C1_lease_fields_invariant (op : Op) (s : List Job)
    (h : storeLeaseInv s) : storeLeaseInv (applyOp op s) := by
  cases op with
  | enqueue jid i o p c =>
    intro j hj
    rcases List.mem_append.mp hj with hj | hj
    · exact h j hj
    · rw [List.mem_singleton.mp hj]; rfl
  | lease wid now =>
    intro j hj
    simp only [applyOp, lease_next_job] at hj
    cases hsel : selectNext now s with
    | none => rw [hsel] at hj; exact h j hj
    | some j0 =>
      rw [hsel] at hj
      simp only at hj
      rcases mem_setJob hj with hj' | hj'
      · exact h j hj'
      · rw [hj']; exact leaseInv_claimJob wid now j0
  | renew jid wid pr now =>
    intro j hj
    simp only [applyOp, update_lease] at hj
    cases hf : findJob s jid with
    | none => rw [hf] at hj; exact h j hj
    | some j0 =>
      rw [hf] at hj
      by_cases hw : j0.worker_id = some wid
      · simp only [if_pos hw] at hj
        rcases mem_setJob hj with hj' | hj'
        · exact h j hj'
        · rw [hj']; exact leaseInv_renewRow j0 wid _ pr hw
      · simp only [if_neg hw] at hj; exact h j hj
  | complete jid wid su rc se so er now =>
    intro j hj
    simp only [applyOp, complete_job] at hj
    cases hf : findJob s jid with
    | none => rw [hf] at hj; exact h j hj
    | some j0 =>
      rw [hf] at hj
      by_cases hw : j0.worker_id = some wid
      · simp only [if_pos hw] at hj
        rcases mem_setJob hj with hj' | hj'
        · exact h j hj'
        · rw [hj']; exact leaseInv_completeRow j0 su now rc se so er
      · simp only [if_neg hw] at hj; exact h j hj
  | expire now =>
    intro j hj
    rcases List.mem_map.mp hj with ⟨j0, hj0, hj'⟩
    rw [← hj']
    by_cases hst : stealable now j0 = true
    · rw [if_pos hst]; rfl
    · rw [if_neg hst]; exact h j0 hj0
  | release wid =>
    intro j hj
    rcases List.mem_map.mp hj with ⟨j0, hj0, hj'⟩
    rw [← hj']
    by_cases hm : releaseMatches wid j0 = true
    · rw [if_pos hm]; rfl
    · rw [if_neg hm]; exact h j0 hj0
  | resetFailed =>
    intro j hj
    rcases List.mem_map.mp hj with ⟨j0, hj0, hj'⟩
    rw [← hj']
    by_cases hm : j0.state = JobState.FAILED
    · rw [if_pos hm]; rfl
    · rw [if_neg hm]; exact h j0 hj0

/-- C1 witness: the amended invariant applied to a concrete lease
transaction on a one-row PENDING table. -/
theorem C1_witness :
    storeLeaseInv (applyOp (Op.lease "w1" 50)
      [newJob 1 "/in/a.mov" "/out/a.mov" "prores_proxy_1280" 0]) :=
  C1_lease_fields_invariant (Op.lease "w1" 50)
    [newJob 1 "/in/a.mov" "/out/a.mov" "prores_proxy_1280" 0]
    (by intro j hj; rw [List.mem_singleton.mp hj]; rfl)

/-- C2: REFUTED as stated.  `complete_job` has no terminal-state check
and does not clear `worker_id`, so a second complete from the worker
recorded on the job passes the ownership check and is re-applied: here
the job completed SUCCEEDED is flipped to FAILED by a later complete
from the same worker. -/
theorem C2_counterexample :
    (findJob (complete_job 1 "w1" true 0 none none none 200
        [sampleJob 1 JobState.LEASED (some "w1") (some 100) 1 (some 5) 0])
        1).map Job.state = some JobState.SUCCEEDED
    ∧ (findJob (complete_job 1 "w1" false 1 none none none 300
        (complete_job 1 "w1" true 0 none none none 200
          [sampleJob 1 JobState.LEASED (some "w1") (some 100) 1 (some 5) 0]))
        1).map Job.state = some JobState.FAILED := by
  constructor <;> rfl

/-- C2 (amended): a complete whose caller differs from the job's stored
`worker_id` (or whose job id is unknown) leaves the job table
unchanged; because `complete_job` retains `worker_id` and never checks
for a terminal state, a repeated complete from the worker recorded on
the job is applied again and mutates the record. -/
theorem C2_nonowner_complete_noop (jid : Nat) (wid : String) (su : Bool)
    (rc : Int) (se so er : Option String) (now : Int) (s : List Job)
    (h : (findJob s jid).map Job.worker_id ≠ some (some wid)) :
    complete_job jid wid su rc se so er now s = s := by
  unfold complete_job
  cases hf : findJob s jid with
  | none => rfl
  | some j =>
    have hw : ¬j.worker_id = some wid := by
      intro hww
      exact h (by rw [hf]; simp [hww])
    simp only [if_neg hw]

/-- C2 witness: a complete from `w2` for a job recorded as completed by
`w1` leaves the table unchanged. -/
theorem C2_witness :
    complete_job 1 "w2" true 0 none none none 300 [jobDoneByW1]
      = [jobDoneByW1] :=
  C2_nonowner_complete_noop 1 "w2" true 0 none none none 300
    [jobDoneByW1] (by decide)

/-- C4: REFUTED as stated.  A progress report from `w2` for a job
leased to `w1` does not mutate the job through `update_lease`, but the
progress endpoint then overwrites `stderr_tail` and `stdout_tail` with
the request's values regardless of ownership. -/
theorem C4_counterexample :
    (findJob (job_progress 1 "w2" 0 (some "new") (some "newout") 50
        [{ sampleJob 1 JobState.RUNNING (some "w1") (some 100) 1 (some 5) 0 with
           stderr_tail := some "old", stdout_tail := some "oldout" }])
        1).map Job.stderr_tail = some (some "new")
    ∧ (findJob (job_progress 1 "w2" 0 (some "new") (some "newout") 50
        [{ sampleJob 1 JobState.RUNNING (some "w1") (some 100) 1 (some 5) 0 with
           stderr_tail := some "old", stdout_tail := some "oldout" }])
        1).map Job.stdout_tail = some (some "newout") := by
  constructor <;> rfl

/-- C4 (amended): a complete request whose worker_id differs from the
job's stored worker_id leaves the job table unchanged; a progress
(renew) request whose worker_id differs leaves every field of the job
except `stderr_tail` and `stdout_tail` unchanged, but those two are
overwritten with the request's values. -/
theorem C4_mismatched_worker (jid : Nat) (wid : String) (pr : Rat)
    (se so : Option String) (su : Bool) (rc : Int)
    (se2 so2 er : Option String) (now : Int) (st : MasterState) (j : Job)
    (hj : findJob st.jobs jid = some j) (hw : j.worker_id ≠ some wid) :
    job_progress jid wid pr se so now st.jobs
      = setJob st.jobs jid { j with stderr_tail := se, stdout_tail := so }
    ∧ (job_complete jid wid su rc se2 so2 er now st).jobs = st.jobs := by
  have hskip : update_lease jid wid (some pr) now st.jobs = st.jobs := by
    unfold update_lease
    rw [hj]
    simp only [if_neg hw]
  constructor
  · unfold job_progress
    rw [hskip]
    simp only [hj]
  · show complete_job jid wid su rc se2 so2 er now st.jobs = st.jobs
    unfold complete_job
    rw [hj]
    simp only [if_neg hw]

/-- C4 witness: the amended statement at a one-row table leased to `w1`
with a progress/complete request from `w2`. -/
theorem C4_witness :
    job_progress 1 "w2" 0 (some "new") (some "newout") 50 stRunningW1.jobs
      = setJob stRunningW1.jobs 1
          { jobRunningW1 with stderr_tail := some "new", stdout_tail := some "newout" }
    ∧ (job_complete 1 "w2" true 0 none none none 50 stRunningW1).jobs
      = stRunningW1.jobs :=
  C4_mismatched_worker 1 "w2" 0 (some "new") (some "newout") true 0
    none none none 50 stRunningW1 jobRunningW1 (by rfl) (by decide)

theorem startedInv_claimJob (wid : String) (now : Int) (j : Job) :
    startedInv (claimJob wid now j) = true := by
  cases hs : j.started_at <;> simp [startedInv, claimJob, hs]

/-- C5: REFUTED as stated.  `release_jobs_for_worker` clears
`started_at` but leaves `attempts` untouched, so a job leased once
(attempts = 1, started_at set) comes back from a dead-worker release
with attempts = 1 and started_at null. -/
theorem C5_counterexample :
    (findJob (release_jobs_for_worker "w1"
        [sampleJob 1 JobState.LEASED (some "w1") (some 100) 1 (some 5) 0]).2
        1).map Job.attempts = some 1
    ∧ (findJob (release_jobs_for_worker "w1"
        [sampleJob 1 JobState.LEASED (some "w1") (some 100) 1 (some 5) 0]).2
        1).map Job.started_at = some none := by
  constructor <;> rfl

/-- C5 (amended): `attempts ≥ 1 ⇒ started_at ≠ ∅` is preserved by
enqueue, lease, renew, complete and lease expiry; but `release_worker`
and `reset_failed` clear `started_at` while leaving `attempts`
unchanged, so the implication can fail after them. -/
theorem C5_started_at_invariant (s : List Job) (h : storeStartedInv s) :
    (∀ jid i o p c, storeStartedInv (applyOp (Op.enqueue jid i o p c) s))
    ∧ (∀ wid now, storeStartedInv (applyOp (Op.lease wid now) s))
    ∧ (∀ jid wid pr now, storeStartedInv (applyOp (Op.renew jid wid pr now) s))
    ∧ (∀ jid wid su rc se so er now,
        storeStartedInv (applyOp (Op.complete jid wid su rc se so er now) s))
    ∧ (∀ now, storeStartedInv (applyOp (Op.expire now) s))
    ∧ (∀ wid, ∀ j ∈ s, releaseMatches wid j = true →
        releasedJob j ∈ applyOp (Op.release wid) s
        ∧ (releasedJob j).started_at = none
        ∧ (releasedJob j).attempts = j.attempts)
    ∧ (∀ j ∈ s, j.state = JobState.FAILED →
        resetJobFields j ∈ applyOp Op.resetFailed s
        ∧ (resetJobFields j).started_at = none
        ∧ (resetJobFields j).attempts = j.attempts) := by
  refine ⟨?_, ?_, ?_, ?_, ?_, ?_, ?_⟩
  · intro jid i o p c j hj
    rcases List.mem_append.mp hj with hj | hj
    · exact h j hj
    · rw [List.mem_singleton.mp hj]; rfl
  · intro wid now j hj
    simp only [applyOp, lease_next_job] at hj
    cases hsel : selectNext now s with
    | none => rw [hsel] at hj; exact h j hj
    | some j0 =>
      rw [hsel] at hj
      simp only at hj
      rcases mem_setJob hj with hj' | hj'
      · exact h j hj'
      · rw [hj']; exact startedInv_claimJob wid now j0
  · intro jid wid pr now j hj
    simp only [applyOp, update_lease] at hj
    cases hf : findJob s jid with
    | none => rw [hf] at hj; exact h j hj
    | some j0 =>
      rw [hf] at hj
      by_cases hw : j0.worker_id = some wid
      · simp only [if_pos hw] at hj
        rcases mem_setJob hj with hj' | hj'
        · exact h j hj'
        · rw [hj']; exact h j0 (List.mem_of_find?_eq_some hf)
      · simp only [if_neg hw] at hj; exact h j hj
  · intro jid wid su rc se so er now j hj
    simp only [applyOp, complete_job] at hj
    cases hf : findJob s jid with
    | none => rw [hf] at hj; exact h j hj
    | some j0 =>
      rw [hf] at hj
      by_cases hw : j0.worker_id = some wid
      · simp only [if_pos hw] at hj
        rcases mem_setJob hj with hj' | hj'
        · exact h j hj'
        · rw [hj']; exact h j0 (List.mem_of_find?_eq_some hf)
      · simp only [if_neg hw] at hj; exact h j hj
  · intro now j hj
    rcases List.mem_map.mp hj with ⟨j0, hj0, hj'⟩
    rw [← hj']
    by_cases hst : stealable now j0 = true
    · rw [if_pos hst]; exact h j0 hj0
    · rw [if_neg hst]; exact h j0 hj0
  · intro wid j hj hm
    refine ⟨?_, rfl, rfl⟩
    have h2 : releasedJob j
        = (fun j => if releaseMatches wid j then releasedJob j else j) j := by
      simp [hm]
    rw [h2]
    exact List.mem_map_of_mem _ hj
  · intro j hj hm
    refine ⟨?_, rfl, rfl⟩
    have h2 : resetJobFields j
        = (fun j => if j.state = JobState.FAILED then resetJobFields j else j) j := by
      simp [hm]
    rw [h2]
    exact List.mem_map_of_mem _ hj

/-- C5 witness: the preserved part applied to a concrete lease on a
fresh PENDING table. -/
theorem C5_witness :
    storeStartedInv (applyOp (Op.lease "w1" 50)
      [newJob 1 "/in/a.mov" "/out/a.mov" "prores_proxy_1280" 0]) :=
  (C5_started_at_invariant
      [newJob 1 "/in/a.mov" "/out/a.mov" "prores_proxy_1280" 0]
      (by intro j hj; rw [List.mem_singleton.mp hj]; rfl)).2.1 "w1" 50

/-- C3: CONFIRMED.  `lease_next_job` returns nothing and leaves the
table untouched exactly when there is no PENDING job and no expired
lease; when a PENDING job exists the claimed row originates from a
PENDING job of minimal `created_at` (FIFO); a steal can only happen
when no PENDING job exists; and the claimed row carries state LEASED,
the caller's worker id, `lease_until = now + LEASE_DURATION`, attempts
incremented by one, and `started_at = now` iff it was null. -/
theorem C3_lease_next_spec (wid : String) (now : Int) (s : List Job) :
    ((lease_next_job wid now s).1 = none →
        (lease_next_job wid now s).2 = s
        ∧ (∀ j ∈ s, j.state ≠ JobState.PENDING)
        ∧ (∀ j ∈ s, stealable now j = false))
    ∧ ((∃ j ∈ s, j.state = JobState.PENDING) →
        ∃ j0 ∈ s, j0.state = JobState.PENDING
          ∧ (∀ k ∈ s, k.state = JobState.PENDING →
              j0.created_at ≤ k.created_at)
          ∧ (lease_next_job wid now s).1 = some (claimJob wid now j0)
          ∧ (lease_next_job wid now s).2 = setJob s j0.id (claimJob wid now j0))
    ∧ ((∀ j ∈ s, j.state ≠ JobState.PENDING) →
        ∀ jr, (lease_next_job wid now s).1 = some jr →
          ∃ j0 ∈ s, stealable now j0 = true ∧ jr = claimJob wid now j0
            ∧ (lease_next_job wid now s).2 = setJob s j0.id (claimJob wid now j0))
    ∧ (∀ j : Job, (claimJob wid now j).state = JobState.LEASED
        ∧ (claimJob wid now j).worker_id = some wid
        ∧ (claimJob wid now j).lease_until = some (now + LEASE_DURATION_SECONDS)
        ∧ (claimJob wid now j).attempts = j.attempts + 1
        ∧ (j.started_at = none → (claimJob wid now j).started_at = some now)
        ∧ (∀ t, j.started_at = some t → (claimJob wid now j).started_at = some t)) := by
  refine ⟨?_, ?_, ?_, ?_⟩
  · intro hnone
    cases hsel : selectNext now s with
    | some j0 =>
      simp only [lease_next_job, hsel] at hnone
      exact Option.noConfusion hnone
    | none =>
      refine ⟨by simp only [lease_next_job, hsel], ?_, ?_⟩
      · intro j hj hp
        have hjp : j ∈ pendingJobs s := mem_pendingJobs.mpr ⟨hj, hp⟩
        cases hm : minByCreatedAt (pendingJobs s) with
        | none => exact minByCreatedAt_ne_none hjp hm
        | some j1 =>
          simp only [selectNext, hm] at hsel
          exact Option.noConfusion hsel
      · intro j hj
        cases hm : minByCreatedAt (pendingJobs s) with
        | some j1 =>
          simp only [selectNext, hm] at hsel
          exact Option.noConfusion hsel
        | none =>
          simp only [selectNext, hm, selectSteal] at hsel
          by_contra hst
          have hjf : j ∈ s.filter (stealable now) :=
            List.mem_filter.mpr ⟨hj, by simp at hst; simp [hst]⟩
          cases hfil : s.filter (stealable now) with
          | nil => rw [hfil] at hjf; cases hjf
          | cons a l => rw [hfil] at hsel; cases hsel
  · rintro ⟨jp, hjp, hjps⟩
    have hjpf : jp ∈ pendingJobs s := mem_pendingJobs.mpr ⟨hjp, hjps⟩
    cases hm : minByCreatedAt (pendingJobs s) with
    | none => exact absurd hm (minByCreatedAt_ne_none hjpf)
    | some j0 =>
      have hj0 := mem_pendingJobs.mp (minByCreatedAt_mem hm)
      refine ⟨j0, hj0.1, hj0.2, ?_, ?_, ?_⟩
      · intro k hk hkp
        exact minByCreatedAt_le hm k (mem_pendingJobs.mpr ⟨hk, hkp⟩)
      · simp only [lease_next_job, selectNext, hm]
      · simp only [lease_next_job, selectNext, hm]
  · intro hnp jr hjr
    have hpe : pendingJobs s = [] := pendingJobs_eq_nil_of hnp
    cases hfil : s.filter (stealable now) with
    | nil =>
      simp only [lease_next_job, selectNext, hpe, minByCreatedAt, selectSteal,
        hfil, List.head?] at hjr
      exact Option.noConfusion hjr
    | cons a l =>
      have ha : a ∈ s.filter (stealable now) := by
        rw [hfil]; exact List.mem_cons_self _ _
      have ham := List.mem_filter.mp ha
      refine ⟨a, ham.1, ham.2, ?_, ?_⟩
      · simp only [lease_next_job, selectNext, hpe, minByCreatedAt, selectSteal,
          hfil, List.head?] at hjr
        exact (Option.some.inj hjr).symm
      · simp only [lease_next_job, selectNext, hpe, minByCreatedAt, selectSteal,
          hfil, List.head?]
  · intro j
    refine ⟨rfl, rfl, rfl, rfl, ?_, ?_⟩
    · intro h0; simp [claimJob, h0]
    · intro t ht; simp [claimJob, ht]

/-- C3 witness: on a table of two PENDING jobs (created at 10 and 20)
the FIFO clause produces the claimed job. -/
theorem C3_witness :
    ∃ j0 ∈ storeTwoPending, j0.state = JobState.PENDING
      ∧ (∀ k ∈ storeTwoPending, k.state = JobState.PENDING →
          j0.created_at ≤ k.created_at)
      ∧ (lease_next_job "w1" 50 storeTwoPending).1 = some (claimJob "w1" 50 j0)
      ∧ (lease_next_job "w1" 50 storeTwoPending).2
          = setJob storeTwoPending j0.id (claimJob "w1" 50 j0) :=
  (C3_lease_next_spec "w1" 50 storeTwoPending).2.1 (by decide)

/-- C8: CONFIRMED.  With no PENDING job in the table: if some
LEASED/RUNNING job's `lease_until` is strictly earlier than `now` then
`lease_next_job` claims a stealable job; and when every lease ends at
or after `now` (in particular when one ends exactly at `now`) nothing
is claimed. -/
theorem C8_steal_boundary (wid : String) (now : Int) (s : List Job)
    (hnp : ∀ j ∈ s, j.state ≠ JobState.PENDING) :
    ((∃ j ∈ s, stealable now j = true) →
        ∃ j0 ∈ s, stealable now j0 = true
          ∧ (lease_next_job wid now s).1 = some (claimJob wid now j0))
    ∧ ((∀ j ∈ s, ∀ t, j.lease_until = some t → now ≤ t) →
        (lease_next_job wid now s).1 = none) := by
  have hpe : pendingJobs s = [] := pendingJobs_eq_nil_of hnp
  constructor
  · rintro ⟨j, hj, hjs⟩
    have hjf : j ∈ s.filter (stealable now) := List.mem_filter.mpr ⟨hj, hjs⟩
    cases hfil : s.filter (stealable now) with
    | nil => rw [hfil] at hjf; cases hjf
    | cons a l =>
      have ha : a ∈ s.filter (stealable now) := by
        rw [hfil]; exact List.mem_cons_self _ _
      have ham := List.mem_filter.mp ha
      refine ⟨a, ham.1, ham.2, ?_⟩
      simp only [lease_next_job, selectNext, hpe, minByCreatedAt, selectSteal,
        hfil, List.head?]
  · intro hle
    have hfe : s.filter (stealable now) = [] := by
      apply List.filter_eq_nil_iff.mpr
      intro j hj
      cases hlu : j.lease_until with
      | none => simp [stealable, hlu]
      | some t =>
        have := hle j hj t hlu
        simp [stealable, hlu, not_lt.mpr this]
    simp only [lease_next_job, selectNext, hpe, minByCreatedAt, selectSteal,
      hfe, List.head?]

/-- C8 witness: at `now = 100`, a lease ending at 99 is stolen while a
lease ending exactly at 100 is not. -/
theorem C8_witness :
    (∃ j0 ∈ storeExpiredLease, stealable 100 j0 = true
      ∧ (lease_next_job "w2" 100 storeExpiredLease).1 = some (claimJob "w2" 100 j0))
    ∧ (lease_next_job "w2" 100 storeLeaseAtNow).1 = none :=
  ⟨(C8_steal_boundary "w2" 100 storeExpiredLease (by decide)).1 (by decide),
   (C8_steal_boundary "w2" 100 storeLeaseAtNow (by decide)).2 (by decide)⟩

/-- C6: CONFIRMED.  One run of the worker sweeper
(`mark_offline_workers`) turns every worker whose `last_seen` is
strictly older than `now - HEARTBEAT_TIMEOUT` and whose status is not
OFFLINE into an OFFLINE, non-accepting worker with no running job, and
reverts each of that worker's LEASED/RUNNING jobs to PENDING with
`worker_id` and `lease_until` cleared and `attempts` unchanged. -/
theorem C6_worker_sweeper (now : Int) (ws : List Worker) (js : List Job)
    (w : Worker) (t : Int) (hw : w ∈ ws) (hls : w.last_seen = some t)
    (ht : t < now - HEARTBEAT_TIMEOUT_SECONDS)
    (hst : w.status ≠ WorkerStatus.OFFLINE) :
    (offlineWorker w ∈ (mark_offline_workers now ws js).1
     ∧ (offlineWorker w).status = WorkerStatus.OFFLINE
     ∧ (offlineWorker w).accept_leases = false
     ∧ (offlineWorker w).running_job_id = none)
    ∧ (∀ j ∈ js, j.worker_id = some w.id →
        (j.state = JobState.LEASED ∨ j.state = JobState.RUNNING) →
          releasedJob j ∈ (mark_offline_workers now ws js).2
          ∧ (releasedJob j).state = JobState.PENDING
          ∧ (releasedJob j).worker_id = none
          ∧ (releasedJob j).lease_until = none
          ∧ (releasedJob j).attempts = j.attempts) := by
  have hstale : staleWorker now w = true := by
    simp [staleWorker, hls, ht, hst]
  have hguard : ¬ (HEARTBEAT_TIMEOUT_SECONDS ≤ (0 : Int)) := by
    norm_num [HEARTBEAT_TIMEOUT_SECONDS]
  constructor
  · refine ⟨?_, rfl, rfl, rfl⟩
    simp only [mark_offline_workers, if_neg hguard]
    have h2 : offlineWorker w
        = (fun w => if staleWorker now w then offlineWorker w else w) w := by
      simp [hstale]
    rw [h2]
    exact List.mem_map_of_mem _ hw
  · intro j hj hjw hjs
    refine ⟨?_, rfl, rfl, rfl, rfl⟩
    simp only [mark_offline_workers, if_neg hguard]
    rw [release_foldl_map]
    have hany : (((ws.filter (staleWorker now)).map (fun w => w.id)).any
        (fun wid => releaseMatches wid j)) = true := by
      apply List.any_eq_true.mpr
      refine ⟨w.id, List.mem_map_of_mem _ (List.mem_filter.mpr ⟨hw, hstale⟩), ?_⟩
      rcases hjs with h | h <;> simp [releaseMatches, hjw, h]
    have h2 : releasedJob j
        = (fun j => if (((ws.filter (staleWorker now)).map (fun w => w.id)).any
            (fun wid => releaseMatches wid j)) then releasedJob j else j) j := by
      simp [hany]
    rw [h2]
    exact List.mem_map_of_mem _ hj

/-- C6 witness: at `now = 100` a worker last seen at 10 is swept
offline and its RUNNING job is reverted to PENDING. -/
theorem C6_witness :
    (offlineWorker workerStaleW1
        ∈ (mark_offline_workers 100 [workerStaleW1] [jobRunningW1]).1
     ∧ (offlineWorker workerStaleW1).status = WorkerStatus.OFFLINE
     ∧ (offlineWorker workerStaleW1).accept_leases = false
     ∧ (offlineWorker workerStaleW1).running_job_id = none)
    ∧ (releasedJob jobRunningW1
        ∈ (mark_offline_workers 100 [workerStaleW1] [jobRunningW1]).2
       ∧ (releasedJob jobRunningW1).state = JobState.PENDING
       ∧ (releasedJob jobRunningW1).worker_id = none
       ∧ (releasedJob jobRunningW1).lease_until = none
       ∧ (releasedJob jobRunningW1).attempts = jobRunningW1.attempts) := by
  have h := C6_worker_sweeper 100 [workerStaleW1] [jobRunningW1]
    workerStaleW1 10 (List.mem_singleton.mpr rfl) rfl (by decide) (by decide)
  exact ⟨h.1, h.2 jobRunningW1 (List.mem_singleton.mpr rfl) rfl (Or.inr rfl)⟩

/-- C7: REFUTED as stated.  The completion endpoint sets the reporting
worker's status to ONLINE unconditionally: a worker in STOPPING status
does not keep it. -/
theorem C7_counterexample :
    (findWorker stStoppingW1.workers "w1").map Worker.status
      = some WorkerStatus.STOPPING
    ∧ (findWorker (job_complete 1 "w1" true 0 none none none 200
        stStoppingW1).workers "w1").map Worker.status
      = some WorkerStatus.ONLINE := by
  constructor <;> rfl

/-- C7 (amended): after a completion request the master sets the
reporting worker's `running_job_id` to null and its status to ONLINE
unconditionally — also when the worker was STOPPING or
FORCE_STOPPING. -/
theorem C7_unconditional_online (jid : Nat) (wid : String) (su : Bool)
    (rc : Int) (se so er : Option String) (now : Int) (st : MasterState)
    (w : Worker) (hw : findWorker st.workers wid = some w) :
    findWorker (job_complete jid wid su rc se so er now st).workers wid
      = some
          { w with
              running_job_id := none
              status := WorkerStatus.ONLINE } := by
  have hid : w.id = wid := findWorker_id hw
  simp only [job_complete, update_worker_state, hw]
  exact findWorker_setWorker hw hid

/-- C7 witness: the amended statement at the STOPPING worker. -/
theorem C7_witness :
    findWorker (job_complete 1 "w1" true 0 none none none 200
        stStoppingW1).workers "w1"
      = some
          { workerStoppingW1 with
              running_job_id := none
              status := WorkerStatus.ONLINE } :=
  C7_unconditional_online 1 "w1" true 0 none none none 200 stStoppingW1
    workerStoppingW1 (by rfl)

/-- C9: CONFIRMED.  `reset_failed_jobs` is idempotent on the job table;
each application turns every FAILED job into a PENDING one with
progress, worker_id, lease_until, started_at, finished_at, return_code,
stderr_tail, stdout_tail and error_message all cleared (attempts is
kept), and leaves jobs in every other state untouched. -/
theorem C9_reset_failed (s : List Job) :
    (reset_failed_jobs (reset_failed_jobs s).2).2 = (reset_failed_jobs s).2
    ∧ (∀ j ∈ s, j.state = JobState.FAILED →
        resetJobFields j ∈ (reset_failed_jobs s).2
        ∧ (resetJobFields j).state = JobState.PENDING
        ∧ (resetJobFields j).progress = 0
        ∧ (resetJobFields j).worker_id = none
        ∧ (resetJobFields j).lease_until = none
        ∧ (resetJobFields j).started_at = none
        ∧ (resetJobFields j).finished_at = none
        ∧ (resetJobFields j).return_code = none
        ∧ (resetJobFields j).stderr_tail = none
        ∧ (resetJobFields j).stdout_tail = none
        ∧ (resetJobFields j).error_message = none
        ∧ (resetJobFields j).attempts = j.attempts)
    ∧ (∀ j ∈ s, j.state ≠ JobState.FAILED → j ∈ (reset_failed_jobs s).2) := by
  refine ⟨?_, ?_, ?_⟩
  · show List.map _ (List.map _ s) = List.map _ s
    rw [List.map_map]
    apply List.map_congr_left
    intro j _
    by_cases hm : j.state = JobState.FAILED
    · simp [Function.comp, resetJobFields, hm]
    · simp [Function.comp, hm]
  · intro j hj hm
    refine ⟨?_, rfl, rfl, rfl, rfl, rfl, rfl, rfl, rfl, rfl, rfl, rfl⟩
    have h2 : resetJobFields j
        = (fun j => if j.state = JobState.FAILED then resetJobFields j else j) j := by
      simp [hm]
    rw [h2]
    exact List.mem_map_of_mem _ hj
  · intro j hj hm
    have h2 : j
        = (fun j => if j.state = JobState.FAILED then resetJobFields j else j) j := by
      simp [hm]
    rw [h2]
    exact List.mem_map_of_mem _ hj

/-- C9 witness: idempotence and the per-row effect on a concrete table
with one FAILED and one PENDING job. -/
theorem C9_witness :
    (reset_failed_jobs (reset_failed_jobs storeFailedMix).2).2
      = (reset_failed_jobs storeFailedMix).2
    ∧ resetJobFields ({ sampleJob 1 JobState.FAILED (some "w1") none 2 (some 5) 0 with
        finished_at := some 50, return_code := some 1,
        error_message := some "FFmpeg failed" })
      ∈ (reset_failed_jobs storeFailedMix).2
    ∧ sampleJob 2 JobState.PENDING none none 0 none 10
      ∈ (reset_failed_jobs storeFailedMix).2 :=
  ⟨(C9_reset_failed storeFailedMix).1,
   ((C9_reset_failed storeFailedMix).2.1 _
     (by simp [storeFailedMix]) (by rfl)).1,
   (C9_reset_failed storeFailedMix).2.2 _
     (by simp [storeFailedMix]) (by decide)⟩

/-- C10: CONFIRMED.  For a heartbeat of an already-registered worker:
the stored status afterwards equals the status supplied in the body
(a STOPPING/FORCE_STOPPING status set by a stop command is overwritten),
the stored accept_leases flag is untouched, and the response carries
the accept_leases and status the record held right before the body's
status was applied (the upsert having already flipped OFFLINE to
ONLINE). -/
theorem C10_heartbeat_spec (wid name burl : String) (rj : Option Nat)
    (bst : WorkerStatus) (now : Int) (ws : List Worker) (w : Worker)
    (hw : findWorker ws wid = some w) :
    (heartbeat wid name burl rj bst now ws).1.accept_leases = w.accept_leases
    ∧ (heartbeat wid name burl rj bst now ws).1.status
        = (if w.status = WorkerStatus.OFFLINE then WorkerStatus.ONLINE
           else w.status)
    ∧ findWorker (heartbeat wid name burl rj bst now ws).2 wid
        = some
            { w with
                name := name, base_url := burl, last_seen := some now
                status := bst, running_job_id := rj } := by
  have hid : w.id = wid := findWorker_id hw
  have h1 : findWorker (setWorker ws wid
        { w with
            name := name
            base_url := burl
            status := if w.status = WorkerStatus.OFFLINE then WorkerStatus.ONLINE
              else w.status
            last_seen := some now }) wid
      = some
          { w with
              name := name
              base_url := burl
              status := if w.status = WorkerStatus.OFFLINE then WorkerStatus.ONLINE
                else w.status
              last_seen := some now } :=
    findWorker_setWorker hw hid
  refine ⟨?_, ?_, ?_⟩
  · simp only [heartbeat, upsert_worker, hw]
  · simp only [heartbeat, upsert_worker, hw]
  · simp only [heartbeat, upsert_worker, hw, update_worker_state, h1]
    exact findWorker_setWorker h1 hid

/-- C10 witness: heartbeat of a registered STOPPING worker reporting
status ONLINE: the stored status becomes ONLINE while the response
still carries STOPPING and the stored accept_leases flag. -/
theorem C10_witness :
    (heartbeat "w1" "node2" "http://10.0.0.3:0" none WorkerStatus.ONLINE 40
        [workerStoppingW1]).1.accept_leases = workerStoppingW1.accept_leases
    ∧ (heartbeat "w1" "node2" "http://10.0.0.3:0" none WorkerStatus.ONLINE 40
        [workerStoppingW1]).1.status
        = (if workerStoppingW1.status = WorkerStatus.OFFLINE
           then WorkerStatus.ONLINE else workerStoppingW1.status)
    ∧ findWorker (heartbeat "w1" "node2" "http://10.0.0.3:0" none
        WorkerStatus.ONLINE 40 [workerStoppingW1]).2 "w1"
        = some
            { workerStoppingW1 with
                name := "node2", base_url := "http://10.0.0.3:0"
                last_seen := some 40
                status := WorkerStatus.ONLINE, running_job_id := none } :=
  C10_heartbeat_spec "w1" "node2" "http://10.0.0.3:0" none
    WorkerStatus.ONLINE 40 [workerStoppingW1] workerStoppingW1 (by rfl)

end FFarm
